import Mathlib

/-!
Verification of the download-and-extract orchestration engine of
`st-visium-datasets`, as a shallow embedding in Lean 4.

Embedded modules:
* `src/st_atlas_datasets/utils/data_file.py` (`DataFile`)
* `src/st_atlas_datasets/utils/download_manager.py` (`DownloadManager`)
* `src/st_atlas_datasets/utils/extract_manager.py` (`ExtractorManager` and the
  concrete extractors)
* `st_visium_datasets/utils/download.py` (`_validate_md5sum`, `_download_file`,
  `_extract_file`, `_download_and_extract_file`)

Filesystem and network effects are made explicit: the filesystem is a list of
`path ↦ content` entries (most recent write first), and a `St` record threads
the filesystem together with counters for network transfers, digest streams,
archive extraction runs and fetch attempts.  External collaborators
(`hashlib.md5`, `fsspec` remote reads, `tarfile`/`zipfile` member listings)
are parameters collected in an `Env` record, so every theorem quantifies over
them.
-/

set_option autoImplicit false

namespace StVisium

/-! ## Python string and path primitives

The source manipulates paths as strings via `str.rstrip`, `str.endswith`,
`str.lower`, `os.path.normpath`, `os.path.split`, `os.path.join`,
`pathlib.Path.suffixes`, `pathlib.Path.name`, `pathlib.Path.with_suffix` and a
`remove_suffix` helper.  These are embedded below over `List Char` so that all
definitions reduce inside the kernel. -/

def ofChars (l : List Char) : String := ⟨l⟩

/-- List-level test that `p` occurs at the start of `l` (character by character). -/
def listLeads : List Char → List Char → Bool
  | [], _ => true
  | _ :: _, [] => false
  | a :: as, b :: bs => a == b && listLeads as bs

/-- Python `s.startswith(t)`. -/
def pyStartsWith (s t : String) : Bool := listLeads t.data s.data

/-- Python `s.endswith(t)` (a single suffix string). -/
def pyEndsWith (s t : String) : Bool := listLeads t.data.reverse s.data.reverse

/-- Python `s.lower()` (ASCII case folding, which is all the source needs). -/
def pyLower (s : String) : String := ofChars (s.data.map Char.toLower)

/-- Python `s.rstrip(chars)`: remove trailing characters that are members of the
character set `chars` (NOT suffix removal). -/
def pyRstrip (s chars : String) : String :=
  ofChars ((s.data.reverse.dropWhile (fun c => chars.data.contains c)).reverse)

def isSpaceChar (c : Char) : Bool := c == ' ' || c == '\t' || c == '\n' || c == '\r'

/-- Python `s.strip()` with no argument: strip surrounding whitespace. -/
def pyStripWs (s : String) : String :=
  ofChars (((s.data.dropWhile isSpaceChar).reverse.dropWhile isSpaceChar).reverse)

/-- `remove_suffix` from `st_visium_datasets/utils/utils.py`: drop `suf` from the
end of `s` when it is a suffix, otherwise return `s`. -/
def pyRemoveSuffix (s suf : String) : String :=
  if pyEndsWith s suf then ofChars (s.data.take (s.data.length - suf.data.length)) else s

def splitAux (c : Char) : List Char → List Char → List String
  | [], acc => [ofChars acc.reverse]
  | x :: xs, acc =>
    if x == c then ofChars acc.reverse :: splitAux c xs [] else splitAux c xs (x :: acc)

/-- Python `s.split(c)` for a one-character separator. -/
def pySplitChar (c : Char) (s : String) : List String := splitAux c s.data []

def strIntercalate (sep : String) : List String → String
  | [] => ""
  | [x] => x
  | x :: xs => x ++ sep ++ strIntercalate sep xs

/-- `pathlib.Path(p).name`: the final path component. -/
def pathBasename (p : String) : String :=
  ((((pySplitChar '/' p).filter (fun s => s ≠ "")).getLast?).getD "")

/-- `"".join(pathlib.Path(p).suffixes)` computed from the final component `name`:
all dot-suffixes of the name joined together (CPython: empty when the name ends
in a dot; leading dots do not begin a suffix). -/
def pySuffixesJoined (name : String) : String :=
  if pyEndsWith name "." then ""
  else
    let core := ofChars (name.data.dropWhile (fun c => c == '.'))
    let parts := pySplitChar '.' core
    String.join ((parts.drop 1).map (fun s => "." ++ s))

/-- Normalise one path component list as `os.path.normpath` does: drop empty and
`.` components, resolve `..` lexically. -/
def normSegs (isAbs : Bool) (segs : List String) : List String :=
  segs.foldl
    (fun acc seg =>
      if seg = "" ∨ seg = "." then acc
      else if seg = ".." then
        if acc = [] then (if isAbs then [] else [".."])
        else if acc.getLast? = some ".." then acc ++ [".."]
        else acc.dropLast
      else acc ++ [seg])
    []

/-- `os.path.normpath` (POSIX flavour, single leading slash). -/
def pyNormpath (p : String) : String :=
  let isAbs := pyStartsWith p "/"
  let body := strIntercalate "/" (normSegs isAbs (pySplitChar '/' p))
  if isAbs then "/" ++ body else if body = "" then "." else body

/-- `os.path.split`: split a path into `(head, tail)` at the final slash. -/
def pySplitPath (p : String) : String × String :=
  let parts := pySplitChar '/' p
  let tail := (parts.getLast?).getD ""
  let head := strIntercalate "/" parts.dropLast
  let head := if head = "" ∧ pyStartsWith p "/" then "/" else head
  (head, tail)

/-- `os.path.join` (and `pathlib`'s `/` operator): an absolute right argument
replaces the left one. -/
def osJoin (a b : String) : String :=
  if pyStartsWith b "/" then b
  else if a = "" then b
  else if pyEndsWith a "/" then a ++ b
  else a ++ "/" ++ b

/-- `pathlib.Path(p).with_suffix(suf)`: replace the final dot-suffix of the last
component (append when there is none). -/
def pyWithSuffix (p suf : String) : String :=
  let dt := pySplitPath p
  let parts := pySplitChar '.' dt.2
  let newName :=
    if parts.length ≤ 1 then dt.2 ++ suf
    else if (parts.head?).getD "" = "" ∧ parts.length = 2 then dt.2 ++ suf
    else strIntercalate "." parts.dropLast ++ suf
  if dt.1 = "" then newName
  else if dt.1 = "/" then "/" ++ newName
  else dt.1 ++ "/" ++ newName

/-! ## Filesystem and effect state -/

/-- The local filesystem: a list of `path ↦ content` entries, most recent write
first.  Files are only ever added, mirroring the source, which never deletes. -/
structure FS where
  files : List (String × String)
  deriving DecidableEq, Repr

def FS.find : List (String × String) → String → Option String
  | [], _ => none
  | (q, c) :: rest, p => if p = q then some c else FS.find rest p

/-- `Path(p).is_file()`. -/
def FS.isFile (fs : FS) (p : String) : Bool := (FS.find fs.files p).isSome

/-- `Path(p).read_text()` (defaults to `""`; only ever used on existing files). -/
def FS.read (fs : FS) (p : String) : String := (FS.find fs.files p).getD ""

/-- Writing a file (streaming download, `write_text`, extraction output). -/
def FS.write (fs : FS) (p c : String) : FS := ⟨(p, c) :: fs.files⟩

/-- `extract_dir.is_dir() and list(extract_dir.iterdir())`: a directory exists
with entries exactly when some file lives strictly below it. -/
def FS.dirNonEmpty (fs : FS) (d : String) : Bool :=
  fs.files.any (fun pc => pyStartsWith pc.1 (d ++ "/"))

/-- Effect state threaded through every pipeline step: the filesystem plus
counters for completed network transfers, digest streams over a local file,
archive extraction runs, and fetch attempts entered. -/
structure St where
  fs : FS
  transfers : Nat
  hashStreams : Nat
  extractions : Nat
  fetchAttempts : Nat
  deriving DecidableEq, Repr

/-- One archive member (`tarfile.TarInfo` / `zipfile.ZipInfo`): its declared
name inside the archive, whether it is a regular file, and its bytes. -/
structure ArchiveMember where
  name : String
  isFile : Bool
  content : String
  deriving DecidableEq, Repr

/-- External collaborators, kept abstract: `hashlib.md5(·).hexdigest()` as a
function of the hashed bytes, remote reads (`none` models a transfer error),
`tarfile.is_tarfile` / `zipfile.is_zipfile` content probes, and the member
listings produced by `tarfile` / `zipfile` (`none` models an unreadable
archive). -/
structure Env where
  md5 : String → String
  net : String → Option String
  isTarfile : String → Bool
  isZipfile : String → Bool
  tarMembers : String → Option (List ArchiveMember)
  zipMembers : String → Option (List ArchiveMember)

/-- Error taxonomy of the embedded code paths (each constructor corresponds to
one `raise` site or propagated library exception in the source). -/
inductive Err where
  | fileNotFound (p : String)
  | downloadDisallowed (uri : String)
  | notLocal (uri : String)
  | checksumMismatch (expected computed : String)
  | missingMd5 (uri : String)
  | archiveReadError (uri : String)
  | notImplemented
  | fetchError (uri : String)
  | runtimeError (uri : String)
  deriving DecidableEq, Repr

/-! ## `st_atlas_datasets.utils.data_file` -/

/-- `fsspec.core.url_to_fs(uri).protocol != ("file", "local")`: the schemes this
repository actually passes through `fsspec` are `http(s)` URLs (remote) and
bare filesystem paths (local). -/
def isRemoteUri (uri : String) : Bool :=
  pyStartsWith uri "http://" || pyStartsWith uri "https://"

/-- `DataFile` from `st_atlas_datasets/utils/data_file.py`: an immutable
descriptor of one remote or local artifact. -/
structure DataFile where
  uri : String
  md5sum : Option String
  name : String
  deriving DecidableEq, Repr

/-- `__post_init__`: `name = name or Path(uri).name`. -/
def DataFile.ofUri (uri : String) (md5sum : Option String := none) : DataFile :=
  ⟨uri, md5sum, pathBasename uri⟩

/-- `extention` (sic): `"".join(Path(self.uri).suffixes)`, recomputed from the
current `uri` (it is a `cached_property` of each instance, and `copy_with`
builds a fresh instance). -/
def DataFile.extention (f : DataFile) : String := pySuffixesJoined (pathBasename f.uri)

/-- `stem`: `self.name.rstrip(self.extention)` — note the `rstrip` character-set
semantics inherited from the source. -/
def DataFile.stem (f : DataFile) : String := pyRstrip f.name f.extention

/-- `copy_with(uri=...)`: `dataclasses.replace` keeps `md5sum` and the already
populated `name`. -/
def DataFile.withUri (f : DataFile) (u : String) : DataFile := ⟨u, f.md5sum, f.name⟩

/-- `copy_with(md5sum=...)`. -/
def DataFile.withMd5 (f : DataFile) (m : Option String) : DataFile := ⟨f.uri, m, f.name⟩

/-- `copy_with(uri=..., md5sum=...)`. -/
def DataFile.withUriMd5 (f : DataFile) (u : String) (m : Option String) : DataFile :=
  ⟨u, m, f.name⟩

/-- The `UriType` union: `str | Path | dict[str, str] | DataFile`. -/
inductive UriType where
  | s (v : String)
  | p (v : String)
  | d (uri : String) (md5sum : Option String)
  | f (v : DataFile)
  deriving DecidableEq, Repr

/-- `DataFile.parse`. -/
def DataFile.parse : UriType → DataFile
  | .s v => DataFile.ofUri v
  | .p v => DataFile.ofUri v
  | .d uri md5sum => DataFile.ofUri uri md5sum
  | .f v => v

/-- `is_local_file`: `False` for a non-local protocol; for a local path, `True`
when the file exists and `FileNotFoundError` otherwise. -/
def DataFile.isLocalFile (f : DataFile) (fs : FS) : Except Err Bool :=
  if isRemoteUri f.uri then .ok false
  else if fs.isFile f.uri then .ok true
  else .error (.fileNotFound f.uri)

/-- `build_local_filepath(local_dir)`: the existing path for a local file,
otherwise `local_dir / f"{stem}/{md5(uri)}{extention}"`. -/
def DataFile.buildLocalFilepath (f : DataFile) (env : Env) (fs : FS) (dir : String) :
    Except Err String :=
  match f.isLocalFile fs with
  | .error e => .error e
  | .ok true => .ok f.uri
  | .ok false => .ok (osJoin dir (f.stem ++ "/" ++ env.md5 f.uri ++ f.extention))

/-! ## `st_atlas_datasets.utils.extract_manager` -/

/-- The registered extractor classes (`TarExtractor`, `ZipExtractor`) plus the
`NotExtractable` fallback. -/
inductive ExtractorKind where
  | tar
  | zip
  | notExtractable
  deriving DecidableEq, Repr

/-- `VALID_EXTENSIONS` of each extractor class. -/
def VALID_EXTENSIONS : ExtractorKind → List String
  | .tar => [".tar", ".tar.gz", ".tgz", ".tar.bz2", ".tbz2", ".tar.xz", ".txz"]
  | .zip => [".zip"]
  | .notExtractable => []

/-- `ExtractorManager._EXTRACTORS`, in registration order. -/
def EXTRACTORS : List ExtractorKind := [.tar, .zip]

/-- One step of the extension fast path:
`self._data_file.uri.lower().endswith(tuple(extractor.VALID_EXTENSIONS))`. -/
def extMatch (uri : String) (e : ExtractorKind) : Bool :=
  (VALID_EXTENSIONS e).any (fun ext => pyEndsWith (pyLower uri) ext)

/-- The magic-byte probe of each extractor class (`is_extractable`):
`tarfile.is_tarfile` / `zipfile.is_zipfile` on the opened file object. -/
def magicProbe (isTar isZip : String → Bool) : ExtractorKind → String → Bool
  | .tar, c => isTar c
  | .zip, c => isZip c
  | .notExtractable, _ => false

/-- `ExtractorManager.get_extractor`: extension loop over the registered
extractors first, then the magic-byte loop, then `NotExtractable`. -/
def getExtractor (isTar isZip : String → Bool) (uri content : String) : ExtractorKind :=
  match EXTRACTORS.find? (fun e => extMatch uri e) with
  | some e => e
  | none =>
    match EXTRACTORS.find? (fun e => magicProbe isTar isZip e content) with
    | some e => e
    | none => .notExtractable

/-- Modelled from the spec: `ExtractorManager.is_extractable_filepath` is called
by `DownloadManager.extract` but no definition of it appears anywhere in the
source tree; per the spec's detection order, this pipeline gate matches the
registered file-extension suffixes against each registered format without
opening the file. -/
def isExtractableFilepath (uri : String) : Bool :=
  EXTRACTORS.any (fun e => extMatch uri e)

/-- `TarExtractor._extract` / `ZipExtractor._extract` body, plus
`BaseExtractor.extract`'s `mkdir`: `extractall(extract_dir)` materialises every
member at `extract_dir/<member name>` with NO validation of the member path
(the pre-3.14 `tarfile` fully-trusted default, which resolves `..` segments
against the target directory), then the list of regular-file member names is
returned.  `NotExtractable._extract` raises `NotImplementedError`. -/
def runExtractor (env : Env) (kind : ExtractorKind) (uri content extractDir : String)
    (st : St) : St × Except Err (List String) :=
  match kind with
  | .tar =>
    match env.tarMembers content with
    | none => (st, .error (.archiveReadError uri))
    | some ms =>
      let fm := ms.filter (fun m => m.isFile)
      ({st with
          fs := fm.foldl (fun a m => a.write (pyNormpath (osJoin extractDir m.name)) m.content)
            st.fs,
          extractions := st.extractions + 1},
       .ok (fm.map (fun m => m.name)))
  | .zip =>
    match env.zipMembers content with
    | none => (st, .error (.archiveReadError uri))
    | some ms =>
      let fm := ms.filter (fun m => m.isFile)
      ({st with
          fs := fm.foldl (fun a m => a.write (pyNormpath (osJoin extractDir m.name)) m.content)
            st.fs,
          extractions := st.extractions + 1},
       .ok (fm.map (fun m => m.name)))
  | .notExtractable => (st, .error .notImplemented)

/-- `ExtractorManager` used as a context manager around one `extract` call:
`__init__` rejects non-local files and a falsy `md5sum`; `__enter__` opens the
file and runs `get_extractor`; `extract` delegates to the chosen extractor and
returns the member manifest `{m: os.path.join(extract_dir, m)}`. -/
def extractorManagerExtract (env : Env) (file : DataFile) (extractDir : String) (st : St) :
    St × Except Err (List (String × String)) :=
  match file.isLocalFile st.fs with
  | .error e => (st, .error e)
  | .ok false => (st, .error (.notLocal file.uri))
  | .ok true =>
    if (file.md5sum.getD "") = "" then (st, .error (.missingMd5 file.uri))
    else
      let content := st.fs.read file.uri
      let kind := getExtractor env.isTarfile env.isZipfile file.uri content
      match runExtractor env kind file.uri content extractDir st with
      | (st', .error e) => (st', .error e)
      | (st', .ok members) => (st', .ok (members.map (fun m => (m, osJoin extractDir m))))

/-- Standalone model of `TarExtractor._extract(fileobj, extract_dir)`
(`extract_manager.py:49-54`): `tar.extractall(extract_dir)` writes every member
at the path obtained by joining `extract_dir` with the member's declared name —
the library performs no `..` rejection under its fully-trusted default — and
the names of the regular-file members are returned; no exception is raised for
traversal members.  The first component lists the filesystem paths written, the
second the returned member names. -/
def tarExtract (extractDir : String) (ms : List ArchiveMember) :
    List String × List String :=
  (ms.map (fun m => pyNormpath (osJoin extractDir m.name)),
   (ms.filter (fun m => m.isFile)).map (fun m => m.name))

/-- A path is inside a target directory when its normalised form is the
directory or lies strictly below it. -/
def isUnder (dir p : String) : Bool :=
  let d := pyNormpath dir
  let q := pyNormpath p
  q == d || pyStartsWith q (d ++ "/")

/-! ## `st_atlas_datasets.utils.download_manager` -/

/-- The download/extract policy axis: `"always" | "never" | "missing"`. -/
inductive Policy where
  | always
  | never
  | missing
  deriving DecidableEq, Repr

/-- The configuration of one `DownloadManager` instance (its `__init__`
fields; `_download_dir = data_dir / "downloads"` is kept directly). -/
structure Manager where
  downloadPolicy : Policy
  extractPolicy : Policy
  validateChecksums : Bool
  downloadDir : String
  deriving DecidableEq, Repr

/-- The save path `DownloadManager.download` derives for a remote `DataFile`:
the non-local branch of `build_local_filepath(self._download_dir)`. -/
def remoteSavePath (env : Env) (dir : String) (f : DataFile) : String :=
  osJoin dir (f.stem ++ "/" ++ env.md5 f.uri ++ f.extention)

/-- `DownloadManager.download`: local short-circuit, `never` policy rejection,
cache reuse under `missing`, otherwise a streaming fetch to the derived save
path. -/
def DM.download (env : Env) (m : Manager) (uri : UriType) (st : St) :
    St × Except Err DataFile :=
  let file := DataFile.parse uri
  match file.isLocalFile st.fs with
  | .error e => (st, .error e)
  | .ok true => (st, .ok file)
  | .ok false =>
    if m.downloadPolicy = .never then (st, .error (.downloadDisallowed file.uri))
    else
      match file.buildLocalFilepath env st.fs m.downloadDir with
      | .error e => (st, .error e)
      | .ok savePath =>
        if st.fs.isFile savePath = true ∧ m.downloadPolicy = .missing then
          (st, .ok (file.withUri savePath))
        else
          match env.net file.uri with
          | none =>
            ({st with fetchAttempts := st.fetchAttempts + 1}, .error (.fetchError file.uri))
          | some body =>
            ({st with
                fs := st.fs.write savePath body,
                transfers := st.transfers + 1,
                fetchAttempts := st.fetchAttempts + 1},
             .ok (file.withUri savePath))

/-- The sidecar digest path of `DownloadManager.compute_md5sum`:
`f"{file.uri.rstrip(file.extention)}.md5sum"`. -/
def memoPathOf (f : DataFile) : String := pyRstrip f.uri f.extention ++ ".md5sum"

/-- `DownloadManager.compute_md5sum`: reject non-local files; reuse the sidecar
digest file when present, otherwise stream the file through MD5 and persist the
sidecar; compare against the expected checksum only when one is declared and
validation is enabled. -/
def DM.computeMd5sum (env : Env) (m : Manager) (uri : UriType) (st : St) :
    St × Except Err DataFile :=
  let file := DataFile.parse uri
  match file.isLocalFile st.fs with
  | .error e => (st, .error e)
  | .ok false => (st, .error (.notLocal file.uri))
  | .ok true =>
    let md5sumPath := memoPathOf file
    let step :=
      if st.fs.isFile md5sumPath then (st, st.fs.read md5sumPath)
      else
        let c := env.md5 (st.fs.read file.uri)
        ({st with hashStreams := st.hashStreams + 1, fs := st.fs.write md5sumPath c}, c)
    match file.md5sum with
    | some expected =>
      if m.validateChecksums = true ∧ expected ≠ step.2 then
        (step.1, .error (.checksumMismatch expected step.2))
      else (step.1, .ok (file.withMd5 (some step.2)))
    | none => (step.1, .ok (file.withMd5 (some step.2)))

/-- The extraction directory and manifest path `DownloadManager.extract`
derives from a file's uri: `head, tail = os.path.split(os.path.normpath(
uri.rstrip(extention)))`, `extract_dir = head/"extracted"/tail`, manifest
`extract_dir/"extracted_files.json"`. -/
def extractDirOf (f : DataFile) : String :=
  let ht := pySplitPath (pyNormpath (pyRstrip f.uri f.extention))
  osJoin (osJoin ht.1 "extracted") ht.2

def metaPathOf (f : DataFile) : String := osJoin (extractDirOf f) "extracted_files.json"

/-- `json.dumps` of the manifest dict (deterministic serialisation). -/
def jsonDumps (kvs : List (String × String)) : String :=
  "\x7b" ++
    strIntercalate ", " (kvs.map (fun kv => "\"" ++ kv.1 ++ "\": \"" ++ kv.2 ++ "\"")) ++
    "\x7d"

/-- `DownloadManager.extract`: pass-through under the `never` policy or for a
non-extractable path; otherwise extract (unless the manifest already exists and
the policy is not `always`), persist the manifest, and return a descriptor
pointing at the manifest path. -/
def DM.extract (env : Env) (m : Manager) (uri : UriType) (st : St) :
    St × Except Err DataFile :=
  let file := DataFile.parse uri
  if m.extractPolicy = .never then (st, .ok file)
  else if isExtractableFilepath file.uri = false then (st, .ok file)
  else
    let extractDir := extractDirOf file
    let metadataPath := metaPathOf file
    if m.extractPolicy = .always ∨ st.fs.isFile metadataPath = false then
      match extractorManagerExtract env file extractDir st with
      | (st', .error e) => (st', .error e)
      | (st', .ok extractedFiles) =>
        ({st' with fs := st'.fs.write metadataPath (jsonDumps extractedFiles)},
         .ok (file.withUriMd5 metadataPath none))
    else (st, .ok (file.withUriMd5 metadataPath none))

/-- The per-resource pipeline `_worker` of `download_and_extract`:
`extract(compute_md5sum(download(uri)))`. -/
def DM.worker (env : Env) (m : Manager) (uri : UriType) (st : St) :
    St × Except Err DataFile :=
  match DM.download env m uri st with
  | (st', .error e) => (st', .error e)
  | (st', .ok f1) =>
    match DM.computeMd5sum env m (.f f1) st' with
    | (st'', .error e) => (st'', .error e)
    | (st'', .ok f2) => DM.extract env m (.f f2) st''

/-- The work items `download_and_extract` hands to the executor for a sequence
input: `list(self._executor.map(_worker, uris))` submits `_worker` once per
element of `uris`, in input order, with no de-duplication and no per-cache-path
serialisation. -/
def DM.workItems (uris : List UriType) : List UriType := uris

/-- `executor.map(_worker, uris)` collected with `list(...)`: results in input
order; an exception raised by any worker propagates out of the `list(...)`
call. -/
def DM.downloadAndExtractList (env : Env) (m : Manager) (uris : List UriType) (st : St) :
    St × Except Err (List DataFile) :=
  match uris with
  | [] => (st, .ok [])
  | u :: rest =>
    match DM.worker env m u st with
    | (st', .error e) => (st', .error e)
    | (st', .ok f) =>
      match DM.downloadAndExtractList env m rest st' with
      | (st'', .error e) => (st'', .error e)
      | (st'', .ok l) => (st'', .ok (f :: l))

/-- Iterating a `dict[str, str]` yields its keys, which is what
`executor.map(_worker, uris)` receives when a bare dict reaches the sequence
branch of `download_and_extract`. -/
def dictKeys (md5sum : Option String) : List UriType :=
  .s "uri" :: (match md5sum with | some _ => [.s "md5sum"] | none => [])

/-- `DownloadManager.download_and_extract`: a single `str | Path | DataFile`
input runs one worker and returns a single descriptor; any other input is
treated as a sequence and mapped over the worker pool, returning a list. -/
def DM.downloadAndExtract (env : Env) (m : Manager) (inp : UriType ⊕ List UriType)
    (st : St) : St × Except Err (DataFile ⊕ List DataFile) :=
  match inp with
  | .inl (.s u) =>
    match DM.worker env m (.s u) st with
    | (st', .error e) => (st', .error e)
    | (st', .ok f) => (st', .ok (.inl f))
  | .inl (.p u) =>
    match DM.worker env m (.p u) st with
    | (st', .error e) => (st', .error e)
    | (st', .ok f) => (st', .ok (.inl f))
  | .inl (.f f0) =>
    match DM.worker env m (.f f0) st with
    | (st', .error e) => (st', .error e)
    | (st', .ok f) => (st', .ok (.inl f))
  | .inl (.d _ md5sum) =>
    match DM.downloadAndExtractList env m (dictKeys md5sum) st with
    | (st', .error e) => (st', .error e)
    | (st', .ok l) => (st', .ok (.inr l))
  | .inr uris =>
    match DM.downloadAndExtractList env m uris st with
    | (st', .error e) => (st', .error e)
    | (st', .ok l) => (st', .ok (.inr l))

/-- The cache destination a work item resolves to before any transfer:
`DataFile.parse(uri).build_local_filepath(self._download_dir)`. -/
def DM.resolvedCachePath (env : Env) (m : Manager) (uri : UriType) (st : St) :
    Except Err String :=
  (DataFile.parse uri).buildLocalFilepath env st.fs m.downloadDir

/-! ## `st_visium_datasets.utils.download` -/

/-- `DataFile` from `st_visium_datasets/data_file.py` (the descriptor consumed
by `download.py`): an `HttpUrl`, a required `md5sum` and a positive size. -/
structure VDataFile where
  url : String
  md5sum : String
  size : Nat
  deriving DecidableEq, Repr

/-- `_split_extensions(path)[1]`: `"".join(Path(path).suffixes)`. -/
def vExt (path : String) : String := pySuffixesJoined (pathBasename path)

/-- The save path `_download_file` derives:
`download_dir / f"{file.md5sum}{ext}"`. -/
def vSavePath (file : VDataFile) (downloadDir : String) : String :=
  osJoin downloadDir (file.md5sum ++ vExt file.url)

/-- The sidecar digest path `_validate_md5sum` derives:
`filepath.with_suffix(".md5sum")`. -/
def vMemoPath (filepath : String) : String := pyWithSuffix filepath ".md5sum"

/-- `_validate_md5sum`: require the file to exist; reuse the sidecar digest
(`read_text().strip()`) when present, otherwise stream the file through MD5 and
persist the sidecar; return whether the computed digest equals the expected
one. -/
def validateMd5sumV (env : Env) (file : VDataFile) (filepath : String) (st : St) :
    St × Except Err Bool :=
  if st.fs.isFile filepath = false then (st, .error (.fileNotFound filepath))
  else
    let md5sumPath := vMemoPath filepath
    if st.fs.isFile md5sumPath then
      (st, .ok (pyStripWs (st.fs.read md5sumPath) = file.md5sum))
    else
      let computed := env.md5 (st.fs.read filepath)
      ({st with hashStreams := st.hashStreams + 1, fs := st.fs.write md5sumPath computed},
       .ok (computed = file.md5sum))

/-- `_download_file`: fetch to the save path when forced or absent (an I/O
error during the streaming copy propagates uncaught), then validate the
checksum; `some save_path` on success, `none` on a checksum mismatch. -/
def downloadFileV (env : Env) (file : VDataFile) (downloadDir : String) (force : Bool)
    (st : St) : St × Except Err (Option String) :=
  let savePath := vSavePath file downloadDir
  let dl : St × Except Err Unit :=
    if force = true ∨ st.fs.isFile savePath = false then
      let st' := {st with fetchAttempts := st.fetchAttempts + 1}
      match env.net file.url with
      | none => (st', .error (.fetchError file.url))
      | some body =>
        ({st' with fs := st'.fs.write savePath body, transfers := st'.transfers + 1},
         .ok ())
    else (st, .ok ())
  match dl with
  | (st', .error e) => (st', .error e)
  | (st', .ok _) =>
    match validateMd5sumV env file savePath st' with
    | (st'', .error e) => (st'', .error e)
    | (st'', .ok valid) => (st'', .ok (if valid then some savePath else none))

/-- `_extract_file`: require the file to exist; pass non-`.tar.gz` files
through unchanged; reuse a non-empty extraction directory unless forced;
otherwise extract the tar into `remove_suffix(filepath, ".tar.gz")`. -/
def extractFileV (env : Env) (filepath : String) (force : Bool) (st : St) :
    St × Except Err String :=
  if st.fs.isFile filepath = false then (st, .error (.fileNotFound filepath))
  else if pyEndsWith filepath ".tar.gz" = false then (st, .ok filepath)
  else
    let extractDir := pyRemoveSuffix filepath ".tar.gz"
    if st.fs.dirNonEmpty extractDir = true ∧ force = false then (st, .ok extractDir)
    else
      match env.tarMembers (st.fs.read filepath) with
      | none => (st, .error (.archiveReadError filepath))
      | some ms =>
        let fm := ms.filter (fun mm => mm.isFile)
        ({st with
            fs := fm.foldl
              (fun a mm => a.write (pyNormpath (osJoin extractDir mm.name)) mm.content)
              st.fs,
            extractions := st.extractions + 1},
         .ok extractDir)

/-- The retry loop of `_download_and_extract_file`:
`while i < max_retries: _force = force or i > 0; ... if save_path: break`; when
the loop exhausts the budget with no valid download, `RuntimeError` is raised.
`remaining` counts the iterations left (`max_retries - i`), so the recursion is
structural. -/
def dlLoopV (env : Env) (file : VDataFile) (downloadDir : String) (force : Bool) :
    Nat → Nat → St → St × Except Err String
  | 0, _, st => (st, .error (.runtimeError file.url))
  | remaining + 1, i, st =>
    let forced := force || decide (0 < i)
    match downloadFileV env file downloadDir forced st with
    | (st', .error e) => (st', .error e)
    | (st', .ok (some p)) => (st', .ok p)
    | (st', .ok none) => dlLoopV env file downloadDir force remaining (i + 1) st'

/-- `_download_and_extract_file`: the bounded retry loop around
`_download_file`, then `_extract_file` on the validated save path. -/
def downloadAndExtractFileV (env : Env) (file : VDataFile) (downloadDir : String)
    (forceDownload forceExtract : Bool) (maxRetries : Nat) (st : St) :
    St × Except Err String :=
  match dlLoopV env file downloadDir forceDownload maxRetries 0 st with
  | (st', .error e) => (st', .error e)
  | (st', .ok p) => extractFileV env p forceExtract st'

/-! ## Concrete instances used to evaluate the model -/

/-- A concrete environment: constant digest `"X"`, every remote read yields
`"CONT"`. -/
def envW : Env :=
  ⟨fun _ => "X", fun _ => some "CONT", fun _ => false, fun _ => false,
   fun _ => none, fun _ => none⟩

/-- A concrete environment whose digest differs from every declared checksum
used below, with remote reads yielding `"body"`. -/
def envMm : Env :=
  ⟨fun s => "h" ++ s, fun _ => some "body", fun _ => false, fun _ => false,
   fun _ => none, fun _ => none⟩

/-- A concrete environment in which every remote read fails. -/
def envNoNet : Env :=
  ⟨fun s => "h" ++ s, fun _ => none, fun _ => false, fun _ => false,
   fun _ => none, fun _ => none⟩

/-- A manager with both policies `missing`, validation on, cache dir `/dl`. -/
def mW : Manager := ⟨.missing, .missing, true, "/dl"⟩

/-- A manager with both policies `missing` and checksum validation disabled. -/
def mNoVal : Manager := ⟨.missing, .missing, false, "/dl"⟩

def stEmpty : St := ⟨⟨[]⟩, 0, 0, 0, 0⟩

/-- The state after one full pipeline run of `envW`/`mW` on
`https://h/data.bin` from `stEmpty`. -/
def stRun1 : St :=
  ⟨⟨[("/dl/data/X.md5sum", "X"), ("/dl/data/X.bin", "CONT")]⟩, 1, 1, 0, 1⟩

/-- The descriptor produced by that run. -/
def dRun1 : DataFile := ⟨"/dl/data/X.bin", some "X", "data.bin"⟩

/-- A state holding a staged local file and its digest sidecar. -/
def stLocal : St := ⟨⟨[("/a/f.bin", "data"), ("/a/f.md5sum", "c")]⟩, 0, 0, 0, 0⟩

/-- A state holding a staged local file with no digest sidecar. -/
def stLocalNoMemo : St := ⟨⟨[("/a/g.bin", "data")]⟩, 0, 0, 0, 0⟩

/-- A local descriptor for the staged file. -/
def dLocal : DataFile := ⟨"/a/f.bin", none, "f.bin"⟩

/-- The `st_visium` descriptor used below: expected checksum `"aaa"`, which no
digest of `envMm` matches. -/
def vfileA : VDataFile := ⟨"https://h/a.bin", "aaa", 5⟩

/-! ## Filesystem lemmas -/

theorem FS.find_cons (q c : String) (l : List (String × String)) (p : String) :
    FS.find ((q, c) :: l) p = if p = q then some c else FS.find l p := rfl

theorem FS.isFile_write_self (fs : FS) (p c : String) :
    (fs.write p c).isFile p = true := by
  simp [FS.isFile, FS.write, FS.find_cons]

theorem FS.isFile_write_mono (fs : FS) (p c q : String) (h : fs.isFile q = true) :
    (fs.write p c).isFile q = true := by
  by_cases hpq : q = p
  · subst hpq; exact fs.isFile_write_self q c
  · simpa [FS.isFile, FS.write, FS.find_cons, hpq] using h

theorem FS.isFile_write_of_ne (fs : FS) (p c q : String) (h : q ≠ p) :
    (fs.write p c).isFile q = fs.isFile q := by
  simp [FS.isFile, FS.write, FS.find_cons, h]

theorem FS.read_write_self (fs : FS) (p c : String) :
    (fs.write p c).read p = c := by
  simp [FS.read, FS.write, FS.find_cons]

theorem FS.read_write_of_ne (fs : FS) (p c q : String) (h : q ≠ p) :
    (fs.write p c).read q = fs.read q := by
  simp [FS.read, FS.write, FS.find_cons, h]

theorem FS.isFile_foldl_write_mono {α : Type} (f g : α → String) (l : List α)
    (fs : FS) (q : String) (h : fs.isFile q = true) :
    (l.foldl (fun a m => a.write (f m) (g m)) fs).isFile q = true := by
  induction l generalizing fs with
  | nil => simpa using h
  | cons x xs ih =>
    simpa using ih (fs.write (f x) (g x)) (fs.isFile_write_mono (f x) (g x) q h)

/-! ## Descriptor lemmas -/

theorem isLocalFile_remote (f : DataFile) (fs : FS) (h : isRemoteUri f.uri = true) :
    f.isLocalFile fs = .ok false := by
  simp [DataFile.isLocalFile, h]

theorem buildLocalFilepath_remote (f : DataFile) (env : Env) (fs : FS) (dir : String)
    (h : isRemoteUri f.uri = true) :
    f.buildLocalFilepath env fs dir = .ok (remoteSavePath env dir f) := by
  simp [DataFile.buildLocalFilepath, isLocalFile_remote f fs h, remoteSavePath]

theorem isLocalFile_local_present (f : DataFile) (fs : FS)
    (hr : isRemoteUri f.uri = false) (hp : fs.isFile f.uri = true) :
    f.isLocalFile fs = .ok true := by
  simp [DataFile.isLocalFile, hr, hp]

/-! ## C1 -/

/-- C1: the claim says an archive member path escaping the target directory via
`..` segments makes `extract` fail with an `ExtractionError` and write nothing
outside `targetDir`.  The code (`TarExtractor._extract`) delegates to
`tar.extractall(extract_dir)` with no member-path validation: on the archive
whose sole member is `../../etc/passwd`, extraction succeeds, returns the
member, and writes `/data/etc/passwd`, which is outside the target directory
`/data/extracted/foo`. -/
theorem tar_extract_traversal_unchecked :
    tarExtract "/data/extracted/foo" [⟨"../../etc/passwd", true, "x"⟩] =
      (["/data/etc/passwd"], ["../../etc/passwd"]) ∧
    isUnder "/data/extracted/foo" "/data/etc/passwd" = false := by
  exact ⟨rfl, rfl⟩

/-! ## C4 -/

/-- C4 counterexample: `build_local_filepath` is not pure and does fail — for
the descriptor parsed from the local path `/tmp/data.tar` and an empty
filesystem it raises `FileNotFoundError` (via the `is_local_file` check it
performs), contradicting "performs no filesystem I/O, never fails". -/
theorem build_local_filepath_counterexample :
    (DataFile.parse (.s "/tmp/data.tar")).buildLocalFilepath envW ⟨[]⟩ "/cache" =
      .error (.fileNotFound "/tmp/data.tar") := rfl

/-- C4 (amended): for a descriptor with a remote URI, `build_local_filepath` is
pure and deterministic — independent of the filesystem, never failing, and
returning `cacheDir / stem / md5(uri) ++ extension`.  For a local URI it
performs filesystem I/O: it returns the existing path itself when the file
exists and fails with `FileNotFoundError` otherwise. -/
theorem build_local_filepath_amended (env : Env) (f : DataFile) (dir : String)
    (fs fs2 : FS) (h : isRemoteUri f.uri = true) :
    f.buildLocalFilepath env fs dir =
      .ok (osJoin dir (f.stem ++ "/" ++ env.md5 f.uri ++ f.extention)) ∧
    f.buildLocalFilepath env fs dir = f.buildLocalFilepath env fs2 dir ∧
    (∀ g : DataFile, isRemoteUri g.uri = false → fs.isFile g.uri = true →
        g.buildLocalFilepath env fs dir = .ok g.uri) ∧
    (∀ g : DataFile, isRemoteUri g.uri = false → fs.isFile g.uri = false →
        g.buildLocalFilepath env fs dir = .error (.fileNotFound g.uri)) := by
  refine ⟨buildLocalFilepath_remote f env fs dir h, ?_, ?_, ?_⟩
  · rw [buildLocalFilepath_remote f env fs dir h, buildLocalFilepath_remote f env fs2 dir h]
  · intro g hr hp
    simp [DataFile.buildLocalFilepath, isLocalFile_local_present g fs hr hp]
  · intro g hr hp
    simp [DataFile.buildLocalFilepath, DataFile.isLocalFile, hr, hp]

theorem build_local_filepath_amended_witness :
    (DataFile.parse (.s "https://h/data.bin")).buildLocalFilepath envW ⟨[]⟩ "/dl" =
      .ok "/dl/data/X.bin" ∧
    (DataFile.parse (.s "https://h/data.bin")).buildLocalFilepath envW ⟨[]⟩ "/dl" =
      (DataFile.parse (.s "https://h/data.bin")).buildLocalFilepath envW ⟨[("x", "y")]⟩
        "/dl" := by
  have h := build_local_filepath_amended envW (DataFile.parse (.s "https://h/data.bin"))
    "/dl" ⟨[]⟩ ⟨[("x", "y")]⟩ rfl
  exact ⟨by rw [h.1]; rfl, h.2.1⟩

/-! ## C9 -/

/-- C9: for every descriptor whose `is_local_file()` is true, `download`
returns the original descriptor unchanged with the state untouched — no
network transfer, no write, no counter moves. -/
theorem download_local_short_circuit (env : Env) (m : Manager) (f : DataFile) (st : St)
    (h : f.isLocalFile st.fs = .ok true) :
    DM.download env m (.f f) st = (st, .ok f) := by
  simp [DM.download, DataFile.parse, h]

theorem download_local_short_circuit_witness :
    DM.download envW mW (.f dLocal) stLocal = (stLocal, .ok dLocal) :=
  download_local_short_circuit envW mW dLocal stLocal rfl

/-! ## Stage characterisation lemmas -/

/-- What a successful `download` of a remote descriptor under the `missing`
policy guarantees: the result points at the derived save path, the save path
exists afterwards, the filesystem only grows, at most one transfer happens, the
other counters are untouched — and when the save path already existed the call
is a pure cache hit that changes nothing. -/
theorem download_remote_missing_ok (env : Env) (m : Manager) (u : UriType)
    (st st' : St) (d : DataFile)
    (hrem : isRemoteUri (DataFile.parse u).uri = true)
    (hpol : m.downloadPolicy = .missing)
    (h : DM.download env m u st = (st', .ok d)) :
    d = (DataFile.parse u).withUri (remoteSavePath env m.downloadDir (DataFile.parse u)) ∧
    st'.fs.isFile (remoteSavePath env m.downloadDir (DataFile.parse u)) = true ∧
    (∀ p, st.fs.isFile p = true → st'.fs.isFile p = true) ∧
    st'.transfers ≤ st.transfers + 1 ∧
    st'.extractions = st.extractions ∧
    st'.hashStreams = st.hashStreams ∧
    (st.fs.isFile (remoteSavePath env m.downloadDir (DataFile.parse u)) = true →
      st' = st) := by
  rw [DM.download] at h
  rw [isLocalFile_remote (DataFile.parse u) st.fs hrem] at h
  rw [buildLocalFilepath_remote (DataFile.parse u) env st.fs m.downloadDir hrem] at h
  rw [hpol] at h
  simp only [reduceCtorEq, reduceIte] at h
  by_cases hsave :
      st.fs.isFile (remoteSavePath env m.downloadDir (DataFile.parse u)) = true
  · rw [if_pos (by simp [hsave])] at h
    obtain ⟨h1, h2⟩ := Prod.mk.injEq .. ▸ h
    refine ⟨(Except.ok.injEq .. ▸ h2).symm, ?_, ?_, ?_, ?_, ?_, ?_⟩ <;>
      simp [← h1, hsave]
  · rw [if_neg (by simp [hsave])] at h
    cases hnet : env.net (DataFile.parse u).uri with
    | none => rw [hnet] at h; exact absurd (Prod.mk.injEq .. ▸ h).2 (by simp)
    | some body =>
      rw [hnet] at h
      obtain ⟨h1, h2⟩ := Prod.mk.injEq .. ▸ h
      refine ⟨(Except.ok.injEq .. ▸ h2).symm, ?_, ?_, ?_, ?_, ?_, ?_⟩
      · rw [← h1]; exact st.fs.isFile_write_self _ body
      · intro p hp; rw [← h1]; exact st.fs.isFile_write_mono _ body p hp
      · rw [← h1]
      · rw [← h1]
      · rw [← h1]
      · intro hc; exact absurd hc (by simp [hsave])

/-- What a successful `compute_md5sum` on a descriptor guarantees: the uri and
name survive, only the digest-stream counter may move, the filesystem only
grows, the sidecar digest file exists afterwards — and when the sidecar already
existed the call reads it back without touching anything. -/
theorem computeMd5sum_ok (env : Env) (m : Manager) (d : DataFile) (st st' : St)
    (d2 : DataFile)
    (h : DM.computeMd5sum env m (.f d) st = (st', .ok d2)) :
    d2.uri = d.uri ∧ d2.name = d.name ∧
    st'.transfers = st.transfers ∧ st'.extractions = st.extractions ∧
    st'.fetchAttempts = st.fetchAttempts ∧
    (∀ p, st.fs.isFile p = true → st'.fs.isFile p = true) ∧
    st'.fs.isFile (memoPathOf d) = true ∧
    (st.fs.isFile (memoPathOf d) = true →
      st' = st ∧ d2 = d.withMd5 (some (st.fs.read (memoPathOf d)))) := by
  simp only [DM.computeMd5sum, DataFile.parse] at h
  cases hl : d.isLocalFile st.fs with
  | error e => rw [hl] at h; exact absurd (Prod.mk.injEq .. ▸ h).2 (by simp)
  | ok b =>
    cases b with
    | false => rw [hl] at h; exact absurd (Prod.mk.injEq .. ▸ h).2 (by simp)
    | true =>
      rw [hl] at h
      dsimp only at h
      by_cases hm : st.fs.isFile (memoPathOf d) = true
      · rw [if_pos hm] at h
        dsimp only at h
        have hfin : st' = st ∧ d2 = d.withMd5 (some (st.fs.read (memoPathOf d))) := by
          cases hmd : d.md5sum with
          | none =>
            rw [hmd] at h
            dsimp only at h
            obtain ⟨h1, h2⟩ := Prod.mk.injEq .. ▸ h
            exact ⟨h1.symm, (Except.ok.injEq .. ▸ h2).symm⟩
          | some expected =>
            rw [hmd] at h
            dsimp only at h
            by_cases hv : m.validateChecksums = true ∧ expected ≠ st.fs.read (memoPathOf d)
            · rw [if_pos hv] at h
              exact absurd (Prod.mk.injEq .. ▸ h).2 (by simp)
            · rw [if_neg hv] at h
              obtain ⟨h1, h2⟩ := Prod.mk.injEq .. ▸ h
              exact ⟨h1.symm, (Except.ok.injEq .. ▸ h2).symm⟩
        obtain ⟨h1, h2⟩ := hfin
        subst h1 h2
        exact ⟨rfl, rfl, rfl, rfl, rfl, fun p hp => hp, hm, fun _ => ⟨rfl, rfl⟩⟩
      · rw [if_neg hm] at h
        dsimp only at h
        have hfin : st' = {st with
            hashStreams := st.hashStreams + 1,
            fs := st.fs.write (memoPathOf d) (env.md5 (st.fs.read d.uri))} ∧
            d2 = d.withMd5 (some (env.md5 (st.fs.read d.uri))) := by
          cases hmd : d.md5sum with
          | none =>
            rw [hmd] at h
            dsimp only at h
            obtain ⟨h1, h2⟩ := Prod.mk.injEq .. ▸ h
            exact ⟨h1.symm, (Except.ok.injEq .. ▸ h2).symm⟩
          | some expected =>
            rw [hmd] at h
            dsimp only at h
            by_cases hv : m.validateChecksums = true ∧
                expected ≠ env.md5 (st.fs.read d.uri)
            · rw [if_pos hv] at h
              exact absurd (Prod.mk.injEq .. ▸ h).2 (by simp)
            · rw [if_neg hv] at h
              obtain ⟨h1, h2⟩ := Prod.mk.injEq .. ▸ h
              exact ⟨h1.symm, (Except.ok.injEq .. ▸ h2).symm⟩
        obtain ⟨h1, h2⟩ := hfin
        subst h1 h2
        refine ⟨rfl, rfl, rfl, rfl, rfl, ?_, ?_, fun hc => absurd hc hm⟩
        · intro p hp; exact st.fs.isFile_write_mono _ _ p hp
        · exact st.fs.isFile_write_self _ _

/-- What a successful `ExtractorManager` extraction run guarantees: the
filesystem only grows, exactly one extraction is recorded, and no other
counter moves. -/
theorem extractorManagerExtract_ok (env : Env) (file : DataFile) (dirr : String)
    (st st' : St) (l : List (String × String))
    (h : extractorManagerExtract env file dirr st = (st', .ok l)) :
    (∀ p, st.fs.isFile p = true → st'.fs.isFile p = true) ∧
    st'.transfers = st.transfers ∧
    st'.hashStreams = st.hashStreams ∧
    st'.fetchAttempts = st.fetchAttempts ∧
    st'.extractions = st.extractions + 1 := by
  simp only [extractorManagerExtract] at h
  cases hl : file.isLocalFile st.fs with
  | error e => rw [hl] at h; exact absurd (Prod.mk.injEq .. ▸ h).2 (by simp)
  | ok b =>
    cases b with
    | false => rw [hl] at h; exact absurd (Prod.mk.injEq .. ▸ h).2 (by simp)
    | true =>
      rw [hl] at h
      dsimp only at h
      by_cases hmd : (file.md5sum.getD "") = ""
      · rw [if_pos hmd] at h; exact absurd (Prod.mk.injEq .. ▸ h).2 (by simp)
      · rw [if_neg hmd] at h
        cases hk : getExtractor env.isTarfile env.isZipfile file.uri
            (st.fs.read file.uri) with
        | tar =>
          rw [hk] at h
          simp only [runExtractor] at h
          cases hm : env.tarMembers (st.fs.read file.uri) with
          | none => rw [hm] at h; exact absurd (Prod.mk.injEq .. ▸ h).2 (by simp)
          | some ms =>
            rw [hm] at h
            dsimp only at h
            obtain ⟨h1, h2⟩ := Prod.mk.injEq .. ▸ h
            refine ⟨?_, by rw [← h1], by rw [← h1], by rw [← h1], by rw [← h1]⟩
            intro p hp
            rw [← h1]
            exact FS.isFile_foldl_write_mono _ _ _ st.fs p hp
        | zip =>
          rw [hk] at h
          simp only [runExtractor] at h
          cases hm : env.zipMembers (st.fs.read file.uri) with
          | none => rw [hm] at h; exact absurd (Prod.mk.injEq .. ▸ h).2 (by simp)
          | some ms =>
            rw [hm] at h
            dsimp only at h
            obtain ⟨h1, h2⟩ := Prod.mk.injEq .. ▸ h
            refine ⟨?_, by rw [← h1], by rw [← h1], by rw [← h1], by rw [← h1]⟩
            intro p hp
            rw [← h1]
            exact FS.isFile_foldl_write_mono _ _ _ st.fs p hp
        | notExtractable =>
          rw [hk] at h
          simp only [runExtractor] at h
          exact absurd (Prod.mk.injEq .. ▸ h).2 (by simp)

/-- What a successful `extract` under the `missing` policy guarantees: a
non-extractable path passes through unchanged; an extension-matched path yields
the manifest descriptor, leaves the manifest file present, only grows the
filesystem, performs at most one extraction, and is a pure no-op when the
manifest already existed. -/
theorem extract_missing_ok (env : Env) (m : Manager) (d : DataFile) (st st' : St)
    (d3 : DataFile)
    (hpol : m.extractPolicy = .missing)
    (h : DM.extract env m (.f d) st = (st', .ok d3)) :
    (isExtractableFilepath d.uri = false → st' = st ∧ d3 = d) ∧
    (isExtractableFilepath d.uri = true →
      d3 = d.withUriMd5 (metaPathOf d) none ∧
      st'.fs.isFile (metaPathOf d) = true ∧
      (∀ p, st.fs.isFile p = true → st'.fs.isFile p = true) ∧
      st'.transfers = st.transfers ∧
      st'.hashStreams = st.hashStreams ∧
      st'.fetchAttempts = st.fetchAttempts ∧
      st'.extractions ≤ st.extractions + 1 ∧
      (st.fs.isFile (metaPathOf d) = true → st' = st)) := by
  simp only [DM.extract, DataFile.parse] at h
  rw [hpol] at h
  rw [if_neg (by decide : ¬ (Policy.missing = Policy.never))] at h
  by_cases hg : isExtractableFilepath d.uri = false
  · rw [if_pos hg] at h
    obtain ⟨h1, h2⟩ := Prod.mk.injEq .. ▸ h
    exact ⟨fun _ => ⟨h1.symm, (Except.ok.injEq .. ▸ h2).symm⟩,
      fun hc => absurd hc (by simp [hg])⟩
  · rw [if_neg hg] at h
    by_cases hmp : st.fs.isFile (metaPathOf d) = true
    · rw [if_neg (by simp [hmp])] at h
      obtain ⟨h1, h2⟩ := Prod.mk.injEq .. ▸ h
      subst h1
      have h3 : d3 = d.withUriMd5 (metaPathOf d) none := (Except.ok.injEq .. ▸ h2).symm
      refine ⟨fun hc => absurd hc hg, fun _ => ⟨h3, hmp, fun p hp => hp, rfl, rfl, rfl,
        Nat.le_succ _, fun _ => rfl⟩⟩
    · rw [if_pos (Or.inr (by simpa using hmp))] at h
      rcases he : extractorManagerExtract env d (extractDirOf d) st with ⟨stE, rE⟩
      rw [he] at h
      cases rE with
      | error e => exact absurd (Prod.mk.injEq .. ▸ h).2 (by simp)
      | ok lE =>
        obtain ⟨hmono, ht, hh, hf, hx⟩ := extractorManagerExtract_ok env d _ st stE lE he
        obtain ⟨h1, h2⟩ := Prod.mk.injEq .. ▸ h
        have h3 : d3 = d.withUriMd5 (metaPathOf d) none := (Except.ok.injEq .. ▸ h2).symm
        refine ⟨fun hc => absurd hc hg, fun _ => ⟨h3, ?_, ?_, ?_, ?_, ?_, ?_, ?_⟩⟩
        · rw [← h1]; exact stE.fs.isFile_write_self _ _
        · intro p hp
          rw [← h1]
          exact stE.fs.isFile_write_mono _ _ p (hmono p hp)
        · rw [← h1]; exact ht
        · rw [← h1]; exact hh
        · rw [← h1]; exact hf
        · rw [← h1]; simpa using Nat.le_of_eq hx
        · intro hc; exact absurd hc hmp

/-- `memoPathOf` depends only on the descriptor's uri. -/
theorem memoPathOf_congr (f g : DataFile) (h : f.uri = g.uri) :
    memoPathOf f = memoPathOf g := by
  simp [memoPathOf, DataFile.extention, h]

/-- `metaPathOf` depends only on the descriptor's uri. -/
theorem metaPathOf_congr (f g : DataFile) (h : f.uri = g.uri) :
    metaPathOf f = metaPathOf g := by
  simp [metaPathOf, extractDirOf, DataFile.extention, h]

/-- A successful `_worker` run decomposes into a successful download, checksum
computation, and extraction, in that order. -/
theorem worker_ok_decomp (env : Env) (m : Manager) (u : UriType) (st stF : St)
    (dF : DataFile) (h : DM.worker env m u st = (stF, .ok dF)) :
    ∃ stA dA stB dB,
      DM.download env m u st = (stA, .ok dA) ∧
      DM.computeMd5sum env m (.f dA) stA = (stB, .ok dB) ∧
      DM.extract env m (.f dB) stB = (stF, .ok dF) := by
  simp only [DM.worker] at h
  rcases hA : DM.download env m u st with ⟨stA, rA⟩
  rw [hA] at h
  cases rA with
  | error e => exact absurd (Prod.mk.injEq .. ▸ h).2 (by simp)
  | ok dA =>
    dsimp only at h
    rcases hB : DM.computeMd5sum env m (.f dA) stA with ⟨stB, rB⟩
    rw [hB] at h
    cases rB with
    | error e => exact absurd (Prod.mk.injEq .. ▸ h).2 (by simp)
    | ok dB => exact ⟨stA, dA, stB, dB, rfl, hB, h⟩

/-! ## C5 -/

/-- C5: running the full download–verify–extract pipeline twice on the same
unchanged remote resource with `download_policy=missing` and
`extract_policy=missing` performs at most one network transfer and at most one
extraction across both runs, and the second run's output path equals the
first run's. -/
theorem pipeline_idempotent (env : Env) (m : Manager) (u : UriType)
    (st0 st1 st2 : St) (d1 d2 : DataFile)
    (hrem : isRemoteUri (DataFile.parse u).uri = true)
    (hdl : m.downloadPolicy = .missing)
    (hex : m.extractPolicy = .missing)
    (h1 : DM.worker env m u st0 = (st1, .ok d1))
    (h2 : DM.worker env m u st1 = (st2, .ok d2)) :
    d2.uri = d1.uri ∧
    st1.transfers ≤ st0.transfers + 1 ∧ st2.transfers = st1.transfers ∧
    st1.extractions ≤ st0.extractions + 1 ∧ st2.extractions = st1.extractions := by
  obtain ⟨stA1, dA1, stB1, dB1, hA1, hB1, hC1⟩ := worker_ok_decomp env m u st0 st1 d1 h1
  obtain ⟨hdA1, hsaveA1, hmonoA1, htrA1, hexA1, hhsA1, hpureA1⟩ :=
    download_remote_missing_ok env m u st0 stA1 dA1 hrem hdl hA1
  subst hdA1
  obtain ⟨huriB1, hnameB1, htrB1, hexB1, hfaB1, hmonoB1, hmemoB1, hpureB1⟩ :=
    computeMd5sum_ok env m _ stA1 stB1 dB1 hB1
  obtain ⟨hgF1, hgT1⟩ := extract_missing_ok env m dB1 stB1 st1 d1 hex hC1
  -- facts about run 1 needed by run 2
  have huriB1s : dB1.uri =
      remoteSavePath env m.downloadDir (DataFile.parse u) := huriB1
  have hsave1 : st1.fs.isFile
      (remoteSavePath env m.downloadDir (DataFile.parse u)) = true := by
    by_cases hg : isExtractableFilepath dB1.uri = true
    · exact (hgT1 hg).2.2.1 _ (hmonoB1 _ hsaveA1)
    · obtain ⟨he1, _⟩ := hgF1 (by simpa using hg)
      subst he1
      exact hmonoB1 _ hsaveA1
  have hmemo1 : st1.fs.isFile (memoPathOf
      ((DataFile.parse u).withUri
        (remoteSavePath env m.downloadDir (DataFile.parse u)))) = true := by
    by_cases hg : isExtractableFilepath dB1.uri = true
    · exact (hgT1 hg).2.2.1 _ hmemoB1
    · obtain ⟨he1, _⟩ := hgF1 (by simpa using hg)
      subst he1
      exact hmemoB1
  -- run 2
  obtain ⟨stA2, dA2, stB2, dB2, hA2, hB2, hC2⟩ := worker_ok_decomp env m u st1 st2 d2 h2
  obtain ⟨hdA2, hsaveA2, hmonoA2, htrA2, hexA2, hhsA2, hpureA2⟩ :=
    download_remote_missing_ok env m u st1 stA2 dA2 hrem hdl hA2
  subst hdA2
  have heqA : stA2 = st1 := hpureA2 hsave1
  rw [heqA] at hB2
  obtain ⟨huriB2, hnameB2, htrB2, hexB2, hfaB2, hmonoB2, hmemoB2, hpureB2⟩ :=
    computeMd5sum_ok env m _ st1 stB2 dB2 hB2
  obtain ⟨hstB2, hdB2⟩ := hpureB2 hmemo1
  rw [hstB2] at hC2
  obtain ⟨hgF2, hgT2⟩ := extract_missing_ok env m dB2 st1 st2 d2 hex hC2
  have huriB2s : dB2.uri =
      remoteSavePath env m.downloadDir (DataFile.parse u) := huriB2
  have hsameuri : dB2.uri = dB1.uri := by rw [huriB2s, huriB1s]
  -- combine
  by_cases hg : isExtractableFilepath dB1.uri = true
  · have hg2 : isExtractableFilepath dB2.uri = true := by rw [hsameuri]; exact hg
    obtain ⟨hd1, hmeta1, hmonoC1, htrC1, hhsC1, hfaC1, hexC1, _⟩ := hgT1 hg
    obtain ⟨hd2, _, _, _, _, _, _, hpureC2⟩ := hgT2 hg2
    have hmetaeq : metaPathOf dB2 = metaPathOf dB1 := metaPathOf_congr _ _ hsameuri
    have hst2 : st2 = st1 := hpureC2 (by rw [hmetaeq]; exact hmeta1)
    refine ⟨?_, ?_, by rw [hst2], ?_, by rw [hst2]⟩
    · rw [hd1, hd2]
      simpa [DataFile.withUriMd5] using hmetaeq
    · calc st1.transfers = stB1.transfers := htrC1
        _ = stA1.transfers := htrB1
        _ ≤ st0.transfers + 1 := htrA1
    · calc st1.extractions ≤ stB1.extractions + 1 := hexC1
        _ = stA1.extractions + 1 := by rw [hexB1]
        _ = st0.extractions + 1 := by rw [hexA1]
  · have hgb : isExtractableFilepath dB1.uri = false := by simpa using hg
    have hg2 : isExtractableFilepath dB2.uri = false := by rw [hsameuri]; exact hgb
    obtain ⟨he1, hd1⟩ := hgF1 hgb
    obtain ⟨he2, hd2⟩ := hgF2 hg2
    refine ⟨?_, ?_, by rw [he2], ?_, by rw [he2]⟩
    · rw [hd1, hd2, hsameuri]
    · calc st1.transfers = stB1.transfers := by rw [he1]
        _ = stA1.transfers := htrB1
        _ ≤ st0.transfers + 1 := htrA1
    · calc st1.extractions = stB1.extractions := by rw [he1]
        _ = stA1.extractions := hexB1
        _ = st0.extractions := hexA1
        _ ≤ st0.extractions + 1 := Nat.le_succ _

theorem pipeline_idempotent_witness :
    dRun1.uri = dRun1.uri ∧
    stRun1.transfers ≤ stEmpty.transfers + 1 ∧ stRun1.transfers = stRun1.transfers ∧
    stRun1.extractions ≤ stEmpty.extractions + 1 ∧
    stRun1.extractions = stRun1.extractions :=
  pipeline_idempotent envW mW (.s "https://h/data.bin") stEmpty stRun1 stRun1
    dRun1 dRun1 rfl rfl rfl rfl rfl

/-! ## C3 -/

/-- C3 counterexample: for the batch containing the same remote uri twice, the
orchestrator submits two work items (no de-duplication), both resolve to the
same cache path — the mapped cache-path list is not duplicate-free — and a
download task started from the shared pre-submission state (where the path is
absent) fetches and writes that very path.  Two such tasks scheduled
concurrently therefore write the same destination file; nothing de-duplicates
or serialises them per cache path. -/
theorem dm_duplicate_cache_path_race :
    (DM.workItems [.s "https://h/data.bin", .s "https://h/data.bin"]).length = 2 ∧
    (DM.workItems [.s "https://h/data.bin", .s "https://h/data.bin"]).map
        (fun v => DM.resolvedCachePath envW mW v stEmpty) =
      [.ok "/dl/data/X.bin", .ok "/dl/data/X.bin"] ∧
    ¬ (["/dl/data/X.bin", "/dl/data/X.bin"] : List String).Nodup ∧
    stEmpty.fs.isFile "/dl/data/X.bin" = false ∧
    (DM.download envW mW (.s "https://h/data.bin") stEmpty).1.fs.isFile
      "/dl/data/X.bin" = true ∧
    (DM.download envW mW (.s "https://h/data.bin") stEmpty).1.transfers =
      stEmpty.transfers + 1 :=
  ⟨rfl, rfl, by decide, rfl, rfl, rfl⟩

/-- C3 (amended): `download_and_extract` submits one work item per input
element with no de-duplication and no per-cache-path serialisation; every
duplicate whose resolved cache path is absent when its task starts performs its
own fetch and writes that same path, so duplicate descriptors resolving to the
same cache path can write the same destination file concurrently (only the
racy `missing`-policy existence check limits duplicate work). -/
theorem dm_no_dedup_submission (env : Env) (m : Manager) (uris : List UriType)
    (u : UriType) (st : St) (sp body : String)
    (hrem : isRemoteUri (DataFile.parse u).uri = true)
    (hpol : m.downloadPolicy = .missing)
    (hsp : DM.resolvedCachePath env m u st = .ok sp)
    (habs : st.fs.isFile sp = false)
    (hnet : env.net (DataFile.parse u).uri = some body) :
    DM.workItems uris = uris ∧
    (DM.download env m u st).1.fs.isFile sp = true ∧
    (DM.download env m u st).1.transfers = st.transfers + 1 ∧
    (DM.download env m u st).2 = .ok ((DataFile.parse u).withUri sp) := by
  have hb := buildLocalFilepath_remote (DataFile.parse u) env st.fs m.downloadDir hrem
  rw [DM.resolvedCachePath, hb] at hsp
  have hspe : sp = remoteSavePath env m.downloadDir (DataFile.parse u) :=
    (Except.ok.injEq .. ▸ hsp).symm
  have hdl : DM.download env m u st =
      ({st with
          fs := st.fs.write sp body,
          transfers := st.transfers + 1,
          fetchAttempts := st.fetchAttempts + 1},
       .ok ((DataFile.parse u).withUri sp)) := by
    simp only [DM.download]
    rw [isLocalFile_remote _ _ hrem]
    dsimp only
    rw [if_neg (by simp [hpol])]
    rw [hb]
    dsimp only
    rw [← hspe]
    rw [if_neg (by simp [habs])]
    rw [hnet]
  rw [hdl]
  exact ⟨rfl, st.fs.isFile_write_self sp body, rfl, rfl⟩

theorem dm_no_dedup_submission_witness :
    DM.workItems [UriType.s "https://h/data.bin", UriType.s "https://h/data.bin"] =
      [UriType.s "https://h/data.bin", UriType.s "https://h/data.bin"] ∧
    (DM.download envW mW (.s "https://h/data.bin") stEmpty).1.fs.isFile
      "/dl/data/X.bin" = true ∧
    (DM.download envW mW (.s "https://h/data.bin") stEmpty).1.transfers =
      stEmpty.transfers + 1 ∧
    (DM.download envW mW (.s "https://h/data.bin") stEmpty).2 =
      .ok ((DataFile.parse (.s "https://h/data.bin")).withUri "/dl/data/X.bin") :=
  dm_no_dedup_submission envW mW
    [.s "https://h/data.bin", .s "https://h/data.bin"]
    (.s "https://h/data.bin") stEmpty "/dl/data/X.bin" "CONT" rfl rfl rfl rfl rfl

/-! ## C7 -/

/-- C7: `compute_md5sum` returns the memoised digest file's contents without
re-reading the data file when the sidecar exists (no state change, no digest
stream), and otherwise streams the file, persists the sidecar and returns the
fresh digest; when no comparison applies (checksum validation disabled by
policy, or no expected checksum declared) the digest is still computed and
memoised and no error is raised. -/
theorem compute_md5sum_memoization (env : Env) (m : Manager) (u : String)
    (e? : Option String) (st : St)
    (hl : (DataFile.parse (.d u e?)).isLocalFile st.fs = .ok true)
    (hv : m.validateChecksums = false ∨ e? = none) :
    (st.fs.isFile (memoPathOf (DataFile.parse (.d u e?))) = true →
      DM.computeMd5sum env m (.d u e?) st =
        (st, .ok ((DataFile.parse (.d u e?)).withMd5
          (some (st.fs.read (memoPathOf (DataFile.parse (.d u e?)))))))) ∧
    (st.fs.isFile (memoPathOf (DataFile.parse (.d u e?))) = false →
      DM.computeMd5sum env m (.d u e?) st =
        ({st with
            hashStreams := st.hashStreams + 1,
            fs := st.fs.write (memoPathOf (DataFile.parse (.d u e?)))
              (env.md5 (st.fs.read u))},
         .ok ((DataFile.parse (.d u e?)).withMd5
           (some (env.md5 (st.fs.read u)))))) := by
  constructor
  · intro hm
    simp only [DM.computeMd5sum]
    rw [hl]
    dsimp only
    rw [if_pos hm]
    dsimp only
    cases he : e? with
    | none => rfl
    | some expected =>
      have hvf : m.validateChecksums = false := by
        rcases hv with hv | hv
        · exact hv
        · rw [hv] at he; exact absurd he (by simp)
      simp [DataFile.parse, DataFile.ofUri, hvf]
  · intro hm
    simp only [DM.computeMd5sum]
    rw [hl]
    dsimp only
    rw [if_neg (by simp [hm])]
    dsimp only
    cases he : e? with
    | none => rfl
    | some expected =>
      have hvf : m.validateChecksums = false := by
        rcases hv with hv | hv
        · exact hv
        · rw [hv] at he; exact absurd he (by simp)
      simp [DataFile.parse, DataFile.ofUri, hvf]

theorem compute_md5sum_memoization_witness :
    DM.computeMd5sum envW mNoVal (.d "/a/g.bin" (some "zz")) stLocalNoMemo =
      ({stLocalNoMemo with
          hashStreams := stLocalNoMemo.hashStreams + 1,
          fs := stLocalNoMemo.fs.write
            (memoPathOf (DataFile.parse (.d "/a/g.bin" (some "zz"))))
            (envW.md5 (stLocalNoMemo.fs.read "/a/g.bin"))},
       .ok ((DataFile.parse (.d "/a/g.bin" (some "zz"))).withMd5
         (some (envW.md5 (stLocalNoMemo.fs.read "/a/g.bin"))))) :=
  (compute_md5sum_memoization envW mNoVal "/a/g.bin" (some "zz") stLocalNoMemo rfl
    (Or.inl rfl)).2 rfl

/-! ## C8 -/

/-- C8: `get_extractor` matches the registered extension suffixes against each
registered format first — when an extension matches, the result is independent
of the file's content, so the file is never consulted; only when no extension
matches are the magic-byte probes consulted, in the fixed registration order
(tar before zip); when nothing matches the file is classified not-extractable,
and the pipeline (`DownloadManager.extract`) treats a non-extractable path as a
non-error pass-through returning the descriptor unchanged. -/
theorem get_extractor_detection_order (tarP zipP : String → Bool) (env : Env)
    (m : Manager) (uri c c2 : String) (st : St) :
    (isExtractableFilepath uri = true →
      getExtractor tarP zipP uri c = getExtractor tarP zipP uri c2) ∧
    (isExtractableFilepath uri = false → tarP c = true →
      getExtractor tarP zipP uri c = .tar) ∧
    (isExtractableFilepath uri = false → tarP c = false → zipP c = true →
      getExtractor tarP zipP uri c = .zip) ∧
    (isExtractableFilepath uri = false → tarP c = false → zipP c = false →
      getExtractor tarP zipP uri c = .notExtractable) ∧
    (isExtractableFilepath uri = false →
      DM.extract env m (.s uri) st = (st, .ok (DataFile.parse (.s uri)))) := by
  refine ⟨?_, ?_, ?_, ?_, ?_⟩
  · intro hg
    cases ht : extMatch uri .tar <;> cases hz : extMatch uri .zip <;>
      simp_all [getExtractor, isExtractableFilepath, EXTRACTORS]
  · intro hg htar
    cases ht : extMatch uri .tar <;> cases hz : extMatch uri .zip <;>
      simp_all [getExtractor, isExtractableFilepath, EXTRACTORS, magicProbe]
  · intro hg htar hzip
    cases ht : extMatch uri .tar <;> cases hz : extMatch uri .zip <;>
      simp_all [getExtractor, isExtractableFilepath, EXTRACTORS, magicProbe]
  · intro hg htar hzip
    cases ht : extMatch uri .tar <;> cases hz : extMatch uri .zip <;>
      simp_all [getExtractor, isExtractableFilepath, EXTRACTORS, magicProbe]
  · intro hg
    simp only [DM.extract]
    by_cases hp : m.extractPolicy = .never
    · rw [if_pos hp]
    · rw [if_neg hp]
      dsimp only [DataFile.parse, DataFile.ofUri]
      rw [if_pos hg]

theorem get_extractor_detection_order_witness :
    getExtractor (fun c => c == "T") (fun c => c == "P") "data.tar.gz" "" =
      getExtractor (fun c => c == "T") (fun c => c == "P") "data.tar.gz" "zzz" ∧
    getExtractor (fun c => c == "T") (fun c => c == "P") "a.bin" "P" = .zip ∧
    getExtractor (fun c => c == "T") (fun c => c == "P") "a.bin" "x" =
      .notExtractable ∧
    DM.extract envW mW (.s "a.bin") stEmpty =
      (stEmpty, .ok (DataFile.parse (.s "a.bin"))) := by
  refine ⟨?_, ?_, ?_, ?_⟩
  · exact (get_extractor_detection_order (fun c => c == "T") (fun c => c == "P")
      envW mW "data.tar.gz" "" "zzz" stEmpty).1 rfl
  · exact (get_extractor_detection_order (fun c => c == "T") (fun c => c == "P")
      envW mW "a.bin" "P" "" stEmpty).2.2.1 rfl rfl rfl
  · exact (get_extractor_detection_order (fun c => c == "T") (fun c => c == "P")
      envW mW "a.bin" "x" "" stEmpty).2.2.2.1 rfl rfl rfl
  · exact (get_extractor_detection_order (fun c => c == "T") (fun c => c == "P")
      envW mW "a.bin" "x" "" stEmpty).2.2.2.2 rfl

/-! ## C10 -/

/-- The sequence branch preserves length and input order: each output element
is a successful worker result for the input element at the same index. -/
theorem downloadAndExtractList_shape (env : Env) (m : Manager) :
    ∀ (uris : List UriType) (st st' : St) (l : List DataFile),
      DM.downloadAndExtractList env m uris st = (st', .ok l) →
      l.length = uris.length ∧
      ∀ i (hi : i < uris.length) (hj : i < l.length),
        ∃ s s2, DM.worker env m (uris.get ⟨i, hi⟩) s = (s2, .ok (l.get ⟨i, hj⟩)) := by
  intro uris
  induction uris with
  | nil =>
    intro st st' l h
    simp only [DM.downloadAndExtractList] at h
    have hl : l = [] := (Except.ok.injEq .. ▸ (Prod.mk.injEq .. ▸ h).2).symm
    subst hl
    exact ⟨rfl, fun i hi => absurd hi (by simp)⟩
  | cons u rest ih =>
    intro st st' l h
    simp only [DM.downloadAndExtractList] at h
    rcases hw : DM.worker env m u st with ⟨stA, rA⟩
    rw [hw] at h
    cases rA with
    | error e => exact absurd (Prod.mk.injEq .. ▸ h).2 (by simp)
    | ok f =>
      dsimp only at h
      rcases hr : DM.downloadAndExtractList env m rest stA with ⟨stB, rB⟩
      rw [hr] at h
      cases rB with
      | error e => exact absurd (Prod.mk.injEq .. ▸ h).2 (by simp)
      | ok l2 =>
        have hl : l = f :: l2 := (Except.ok.injEq .. ▸ (Prod.mk.injEq .. ▸ h).2).symm
        subst hl
        obtain ⟨ihlen, ihget⟩ := ih stA stB l2 hr
        refine ⟨by simp [ihlen], ?_⟩
        intro i hi hj
        cases i with
        | zero => exact ⟨st, stA, by simpa using hw⟩
        | succ n =>
          have hn : n < rest.length := by simpa using hi
          have hn2 : n < l2.length := by simpa using hj
          obtain ⟨s, s2, hs⟩ := ihget n hn hn2
          exact ⟨s, s2, by simpa using hs⟩

/-- C10: `download_and_extract` applied to a sequence of uris returns a list of
the same length whose i-th element is the pipeline result for the i-th input
uri, and applied to a single string, path or descriptor it runs one worker and
returns a single descriptor (`Sum.inl`), not a list. -/
theorem download_and_extract_shape (env : Env) (m : Manager) (uris : List UriType)
    (st st' : St) (l : List DataFile) (u : String) (f0 : DataFile)
    (h : DM.downloadAndExtractList env m uris st = (st', .ok l)) :
    l.length = uris.length ∧
    (∀ i (hi : i < uris.length) (hj : i < l.length),
      ∃ s s2, DM.worker env m (uris.get ⟨i, hi⟩) s = (s2, .ok (l.get ⟨i, hj⟩))) ∧
    (∀ stx, DM.downloadAndExtract env m (.inl (.s u)) stx =
      ((DM.worker env m (.s u) stx).1,
        Except.map Sum.inl (DM.worker env m (.s u) stx).2)) ∧
    (∀ stx, DM.downloadAndExtract env m (.inl (.p u)) stx =
      ((DM.worker env m (.p u) stx).1,
        Except.map Sum.inl (DM.worker env m (.p u) stx).2)) ∧
    (∀ stx, DM.downloadAndExtract env m (.inl (.f f0)) stx =
      ((DM.worker env m (.f f0) stx).1,
        Except.map Sum.inl (DM.worker env m (.f f0) stx).2)) ∧
    (∀ stx, DM.downloadAndExtract env m (.inr uris) stx =
      ((DM.downloadAndExtractList env m uris stx).1,
        Except.map Sum.inr (DM.downloadAndExtractList env m uris stx).2)) := by
  obtain ⟨hlen, hget⟩ := downloadAndExtractList_shape env m uris st st' l h
  refine ⟨hlen, hget, ?_, ?_, ?_, ?_⟩
  · intro stx
    simp only [DM.downloadAndExtract]
    rcases hw : DM.worker env m (.s u) stx with ⟨stA, rA⟩
    cases rA <;> simp [Except.map]
  · intro stx
    simp only [DM.downloadAndExtract]
    rcases hw : DM.worker env m (.p u) stx with ⟨stA, rA⟩
    cases rA <;> simp [Except.map]
  · intro stx
    simp only [DM.downloadAndExtract]
    rcases hw : DM.worker env m (.f f0) stx with ⟨stA, rA⟩
    cases rA <;> simp [Except.map]
  · intro stx
    simp only [DM.downloadAndExtract]
    rcases hw : DM.downloadAndExtractList env m uris stx with ⟨stA, rA⟩
    cases rA <;> simp [Except.map]

theorem download_and_extract_shape_witness :
    ([(⟨"/a/f.bin", some "c", "f.bin"⟩ : DataFile)]).length =
      ([UriType.s "/a/f.bin"]).length ∧
    DM.downloadAndExtract envW mW (.inr [.s "/a/f.bin"]) stLocal =
      ((DM.downloadAndExtractList envW mW [.s "/a/f.bin"] stLocal).1,
        Except.map Sum.inr
          (DM.downloadAndExtractList envW mW [.s "/a/f.bin"] stLocal).2) := by
  have h := download_and_extract_shape envW mW [.s "/a/f.bin"] stLocal stLocal
    [⟨"/a/f.bin", some "c", "f.bin"⟩] "u" dLocal rfl
  exact ⟨h.1, h.2.2.2.2.2 stLocal⟩

/-! ## C2 and C6: the retry loop of `_download_and_extract_file` -/

/-- A `_download_file` call that fetches (forced or absent save path) into a
state with no memoised digest, whose fresh digest mismatches the expected
checksum: it transfers the bytes, memoises the digest, and reports `none`
(mismatch) rather than raising. -/
theorem downloadFileV_fresh_mismatch (env : Env) (file : VDataFile) (ddir : String)
    (force : Bool) (st : St) (body : String)
    (hnet : env.net file.url = some body)
    (hcond : force = true ∨ st.fs.isFile (vSavePath file ddir) = false)
    (hmp : st.fs.isFile (vMemoPath (vSavePath file ddir)) = false)
    (hne : vMemoPath (vSavePath file ddir) ≠ vSavePath file ddir)
    (h1 : env.md5 body ≠ file.md5sum) :
    downloadFileV env file ddir force st =
      ({st with
          fs := (st.fs.write (vSavePath file ddir) body).write
            (vMemoPath (vSavePath file ddir)) (env.md5 body),
          transfers := st.transfers + 1,
          hashStreams := st.hashStreams + 1,
          fetchAttempts := st.fetchAttempts + 1},
       .ok none) := by
  simp only [downloadFileV, validateMd5sumV]
  rw [if_pos hcond, hnet]
  dsimp only
  rw [if_neg (by simp [FS.isFile_write_self])]
  rw [if_neg (by rw [FS.isFile_write_of_ne _ _ _ _ hne]; simp [hmp])]
  rw [FS.read_write_self]
  simp [h1]

/-- A forced `_download_file` call into a state whose memoised digest exists
but mismatches the expected checksum: it transfers the bytes again, trusts the
memo, and reports `none` again. -/
theorem downloadFileV_memoized_mismatch (env : Env) (file : VDataFile) (ddir : String)
    (force : Bool) (st : St) (body : String)
    (hnet : env.net file.url = some body)
    (hcond : force = true ∨ st.fs.isFile (vSavePath file ddir) = false)
    (hmm : st.fs.isFile (vMemoPath (vSavePath file ddir)) = true)
    (hne : vMemoPath (vSavePath file ddir) ≠ vSavePath file ddir)
    (h2 : pyStripWs (st.fs.read (vMemoPath (vSavePath file ddir))) ≠ file.md5sum) :
    downloadFileV env file ddir force st =
      ({st with
          fs := st.fs.write (vSavePath file ddir) body,
          transfers := st.transfers + 1,
          fetchAttempts := st.fetchAttempts + 1},
       .ok none) := by
  simp only [downloadFileV, validateMd5sumV]
  rw [if_pos hcond, hnet]
  dsimp only
  rw [if_neg (by simp [FS.isFile_write_self])]
  rw [if_pos (by rw [FS.isFile_write_of_ne _ _ _ _ hne]; exact hmm)]
  rw [FS.read_write_of_ne _ _ _ _ hne]
  simp [h2]

/-- One iteration of the retry loop: when `_download_file` reports a checksum
mismatch (`None`), the loop moves on to the next attempt. -/
theorem dlLoopV_step (env : Env) (file : VDataFile) (ddir : String) (force : Bool)
    (r i : Nat) (st st' : St)
    (h : downloadFileV env file ddir (force || decide (0 < i)) st = (st', .ok none)) :
    dlLoopV env file ddir force (r + 1) i st =
      dlLoopV env file ddir force r (i + 1) st' := by
  simp only [dlLoopV]
  rw [h]

/-- C2 (amended): a checksum mismatch does NOT stop the pipeline — the download
is automatically retried, with forced re-download, until the retry budget
(`max_retries = 3`) is exhausted; the pipeline then fails with a `RuntimeError`
naming only the resource (not the expected/computed digest values), and
extraction is not attempted. -/
theorem dl_checksum_mismatch_retries (env : Env) (file : VDataFile) (ddir : String)
    (fe : Bool) (st : St) (body : String)
    (hnet : env.net file.url = some body)
    (h1 : env.md5 body ≠ file.md5sum)
    (h2 : pyStripWs (env.md5 body) ≠ file.md5sum)
    (hsp : st.fs.isFile (vSavePath file ddir) = false)
    (hmp : st.fs.isFile (vMemoPath (vSavePath file ddir)) = false)
    (hne : vMemoPath (vSavePath file ddir) ≠ vSavePath file ddir) :
    (downloadAndExtractFileV env file ddir false fe 3 st).2 =
      .error (.runtimeError file.url) ∧
    (downloadAndExtractFileV env file ddir false fe 3 st).1.transfers =
      st.transfers + 3 ∧
    (downloadAndExtractFileV env file ddir false fe 3 st).1.extractions =
      st.extractions := by
  set T1 : St := {st with
      fs := (st.fs.write (vSavePath file ddir) body).write
        (vMemoPath (vSavePath file ddir)) (env.md5 body),
      transfers := st.transfers + 1,
      hashStreams := st.hashStreams + 1,
      fetchAttempts := st.fetchAttempts + 1} with hT1
  have s1 : downloadFileV env file ddir (false || decide (0 < 0)) st =
      (T1, .ok none) := by
    rw [hT1]
    exact downloadFileV_fresh_mismatch env file ddir _ st body hnet (Or.inr hsp)
      hmp hne h1
  have hmm1 : T1.fs.isFile (vMemoPath (vSavePath file ddir)) = true := by
    rw [hT1]
    exact FS.isFile_write_self _ _ _
  have h2a : pyStripWs (T1.fs.read (vMemoPath (vSavePath file ddir))) ≠
      file.md5sum := by
    rw [hT1]
    dsimp only
    rw [FS.read_write_self]
    exact h2
  set T2 : St := {T1 with
      fs := T1.fs.write (vSavePath file ddir) body,
      transfers := T1.transfers + 1,
      fetchAttempts := T1.fetchAttempts + 1} with hT2
  have s2 : downloadFileV env file ddir (false || decide (0 < 1)) T1 =
      (T2, .ok none) := by
    rw [hT2]
    exact downloadFileV_memoized_mismatch env file ddir _ T1 body hnet (Or.inl rfl)
      hmm1 hne h2a
  have hmm2 : T2.fs.isFile (vMemoPath (vSavePath file ddir)) = true := by
    rw [hT2]
    dsimp only
    rw [FS.isFile_write_of_ne _ _ _ _ hne]
    exact hmm1
  have h2b : pyStripWs (T2.fs.read (vMemoPath (vSavePath file ddir))) ≠
      file.md5sum := by
    rw [hT2]
    dsimp only
    rw [FS.read_write_of_ne _ _ _ _ hne]
    exact h2a
  set T3 : St := {T2 with
      fs := T2.fs.write (vSavePath file ddir) body,
      transfers := T2.transfers + 1,
      fetchAttempts := T2.fetchAttempts + 1} with hT3
  have s3 : downloadFileV env file ddir (false || decide (0 < 2)) T2 =
      (T3, .ok none) := by
    rw [hT3]
    exact downloadFileV_memoized_mismatch env file ddir _ T2 body hnet (Or.inl rfl)
      hmm2 hne h2b
  have hloop : dlLoopV env file ddir false 3 0 st =
      (T3, .error (.runtimeError file.url)) := by
    calc dlLoopV env file ddir false 3 0 st
        = dlLoopV env file ddir false 2 (0 + 1) T1 :=
          dlLoopV_step env file ddir false 2 0 st T1 s1
      _ = dlLoopV env file ddir false 1 (1 + 1) T2 :=
          dlLoopV_step env file ddir false 1 1 T1 T2 s2
      _ = dlLoopV env file ddir false 0 (2 + 1) T3 :=
          dlLoopV_step env file ddir false 0 2 T2 T3 s3
      _ = (T3, .error (.runtimeError file.url)) := rfl
  have hrun : downloadAndExtractFileV env file ddir false fe 3 st =
      (T3, .error (.runtimeError file.url)) := by
    simp only [downloadAndExtractFileV]
    rw [hloop]
  refine ⟨by rw [hrun], ?_, ?_⟩
  · rw [hrun, hT3, hT2, hT1]
  · rw [hrun]

theorem dl_checksum_mismatch_retries_witness :
    (downloadAndExtractFileV envMm vfileA "/dl" false false 3 stEmpty).2 =
      .error (.runtimeError "https://h/a.bin") ∧
    (downloadAndExtractFileV envMm vfileA "/dl" false false 3 stEmpty).1.transfers =
      stEmpty.transfers + 3 ∧
    (downloadAndExtractFileV envMm vfileA "/dl" false false 3 stEmpty).1.extractions =
      stEmpty.extractions :=
  dl_checksum_mismatch_retries envMm vfileA "/dl" false stEmpty "body" rfl
    (by decide) (by decide) rfl rfl (by decide)

/-- C2 counterexample: with expected checksum `"aaa"` and content whose digest
is `"hbody"`, a single pipeline invocation (caller did NOT force a re-download)
performs three transfers — the download IS automatically retried after the
checksum mismatch — and the final error is a `RuntimeError` naming only the
resource, not the expected/computed digest pair the claim requires. -/
theorem dl_checksum_retry_counterexample :
    (downloadAndExtractFileV envMm vfileA "/dl" false false 3 stEmpty).2 =
      .error (.runtimeError "https://h/a.bin") ∧
    (downloadAndExtractFileV envMm vfileA "/dl" false false 3 stEmpty).1.transfers = 3 ∧
    (∀ e c : String, (downloadAndExtractFileV envMm vfileA "/dl" false false 3
      stEmpty).2 ≠ .error (.checksumMismatch e c)) := by
  refine ⟨rfl, rfl, ?_⟩
  intro e c
  intro hcontra
  rw [show (downloadAndExtractFileV envMm vfileA "/dl" false false 3 stEmpty).2 =
      .error (.runtimeError "https://h/a.bin") from rfl] at hcontra
  exact absurd (Except.error.injEq .. ▸ hcontra) (by simp)

/-! ## C6 -/

/-- C6 (amended): a transfer error during fetching is NOT retried — the
exception propagates out of the retry loop on the very first attempt (the loop
only retries checksum-validation failures), so the resource fails after one
fetch attempt even though the budget (3) is not exhausted. -/
theorem transfer_error_propagates (env : Env) (file : VDataFile) (ddir : String)
    (fe : Bool) (st : St)
    (hnet : env.net file.url = none)
    (habs : st.fs.isFile (vSavePath file ddir) = false) :
    downloadAndExtractFileV env file ddir false fe 3 st =
      ({st with fetchAttempts := st.fetchAttempts + 1},
       .error (.fetchError file.url)) := by
  simp only [downloadAndExtractFileV, dlLoopV, downloadFileV]
  rw [if_pos (Or.inr habs), hnet]

theorem transfer_error_propagates_witness :
    downloadAndExtractFileV envNoNet vfileA "/dl" false false 3 stEmpty =
      ({stEmpty with fetchAttempts := stEmpty.fetchAttempts + 1},
       .error (.fetchError "https://h/a.bin")) :=
  transfer_error_propagates envNoNet vfileA "/dl" false stEmpty rfl rfl

/-- C6 counterexample: with a failing transfer (`net = none`), the pipeline
fails with `FetchError` after exactly one fetch attempt — the bounded retry
budget of 3 is never consumed, contradicting "retried up to a bounded retry
budget ... fails only after the budget is exhausted". -/
theorem transfer_error_no_retry_counterexample :
    (downloadAndExtractFileV envNoNet vfileA "/dl" false false 3 stEmpty).2 =
      .error (.fetchError "https://h/a.bin") ∧
    (downloadAndExtractFileV envNoNet vfileA "/dl" false false 3
      stEmpty).1.fetchAttempts = 1 ∧
    (downloadAndExtractFileV envNoNet vfileA "/dl" false false 3
      stEmpty).1.transfers = 0 :=
  ⟨rfl, rfl, rfl⟩

end StVisium
